import Mathlib

/-!
Verification of the GLB packer (`tools/pack_glb.py`).

The packer takes a glTF scene description referencing external buffer and
image files and produces a single self-contained GLB container.  The Lean
definitions below are a shallow embedding of the Python source:

* Python dicts of the typed shapes `GLTFBufferDescription`,
  `GLTFBufferViewDescription`, `GLTFImageDescription` and `GLTFDescription`
  become structures; `NotRequired` fields become `Option`.
* `urlparse` results are modelled by their components (`scheme`, `netloc`,
  `path`) together with the raw string; the packer only inspects those
  three components.
* The filesystem is a partial map from (relative) path to file bytes;
  `os.path.getsize` is the length of the mapped contents.
* Exceptions become an error type with one constructor per raise site:
  the two `GLTFError` raise sites, `OSError` from file access, and
  `OverflowError` from `int.to_bytes` when a value does not fit in four
  bytes.
* The statements `self.bin_length`, `self.source_files` and the mutated
  description are threaded explicitly through the recursions; the final
  written GLB file is a list of byte values.
-/

/-- `align_to_4` from the source: `(value + 3) & ~3`.  On non-negative
integers clearing the two low bits equals subtracting the remainder mod 4. -/
def align_to_4 (value : Nat) : Nat :=
  (value + 3) - (value + 3) % 4

/-- Result of `urllib.parse.urlparse` on a URI string, as the packer uses it:
the raw string plus the `scheme`, `netloc` and `path` components. -/
structure ParsedUri where
  raw : String
  scheme : String
  netloc : String
  path : String
deriving DecidableEq

/-- `GLTFBufferDescription`: `byteLength` required, `uri` optional. -/
structure GLTFBufferDescription where
  byteLength : Nat
  uri : Option ParsedUri
deriving DecidableEq

/-- `GLTFBufferViewDescription`: the packer treats `byteOffset` as optional
(it checks `"byteOffset" not in buffer_view`). -/
structure GLTFBufferViewDescription where
  buffer : Nat
  byteLength : Nat
  byteOffset : Option Nat
deriving DecidableEq

/-- `GLTFImageDescription`: at runtime an image dict may carry any subset of
`uri`, `bufferView` and `mimeType`; the code only tests for `uri`. -/
structure GLTFImageDescription where
  uri : Option ParsedUri
  bufferView : Option Nat
  mimeType : Option String
deriving DecidableEq

/-- `GLTFDescription`: the three arrays the packer rewrites, plus the other
top-level fields of the JSON document, carried as raw key/value text. -/
structure GLTFDescription where
  buffers : List GLTFBufferDescription
  bufferViews : List GLTFBufferViewDescription
  images : List GLTFImageDescription
  others : List (String × String)
deriving DecidableEq

/-- One constructor per failure site of the tool: the two `GLTFError`
raise sites of `_pack_buffers` / `_pack_images`, `OSError` from touching a
missing file, and `OverflowError` from `int.to_bytes(4, ...)`. -/
inductive ToolError where
  | unsupportedReference (uri : ParsedUri)
  | malformedDescription
  | ioFailure (path : String)
  | overflow (value : Nat)
deriving DecidableEq

/-- The filesystem under `source_dir`: relative path to file bytes. -/
abbrev FileSystem := String → Option (List Nat)

/-- Python dict assignment `buffer_offsets[index] = value`. -/
def insertOffset (m : Nat → Option Nat) (key value : Nat) : Nat → Option Nat :=
  fun k => if k = key then some value else m k

/-- The first loop of `GLB._pack_buffers`: walks `description["buffers"]`
with its index, accumulating `bin_length`, `source_files` and
`buffer_offsets`. -/
def packBuffersLoop (buffers : List GLTFBufferDescription) (index binLength : Nat)
    (sourceFiles : List String) (bufferOffsets : Nat → Option Nat) :
    Except ToolError (Nat × List String × (Nat → Option Nat)) :=
  match buffers with
  | [] => .ok (binLength, sourceFiles, bufferOffsets)
  | b :: rest =>
    match b.uri with
    | some u =>
      if u.scheme ≠ "" ∨ u.netloc ≠ "" then
        .error (.unsupportedReference u)
      else
        packBuffersLoop rest (index + 1) (binLength + b.byteLength)
          (sourceFiles ++ [u.path]) (insertOffset bufferOffsets index binLength)
    | none =>
      if index ≠ 0 then
        .error .malformedDescription
      else
        packBuffersLoop rest (index + 1) (binLength + b.byteLength)
          sourceFiles bufferOffsets

/-- The second loop of `GLB._pack_buffers`: a buffer view whose `buffer`
index was remapped gets its `byteOffset` (default 0) shifted by the assigned
offset and its `buffer` set to 0; other views are untouched. -/
def rewriteBufferView (bufferOffsets : Nat → Option Nat)
    (v : GLTFBufferViewDescription) : GLTFBufferViewDescription :=
  match bufferOffsets v.buffer with
  | some off =>
    { buffer := 0, byteLength := v.byteLength, byteOffset := some (v.byteOffset.getD 0 + off) }
  | none => v

/-- `GLB._pack_images`: for each image carrying a `uri`, validate it, stat
the file, append a new buffer view at the current end of `bufferViews`,
point the image at it, delete the `uri`, and grow `bin_length`. -/
def packImagesLoop (fs : FileSystem) (images : List GLTFImageDescription)
    (bufferViews : List GLTFBufferViewDescription) (binLength : Nat)
    (sourceFiles : List String) :
    Except ToolError
      (List GLTFImageDescription × List GLTFBufferViewDescription × Nat × List String) :=
  match images with
  | [] => .ok ([], bufferViews, binLength, sourceFiles)
  | img :: rest =>
    match img.uri with
    | some u =>
      if u.scheme ≠ "" ∨ u.netloc ≠ "" then
        .error (.unsupportedReference u)
      else
        match fs u.path with
        | none => .error (.ioFailure u.path)
        | some contents =>
          match packImagesLoop fs rest
              (bufferViews ++ [{ buffer := 0, byteLength := contents.length,
                                 byteOffset := some binLength }])
              (binLength + contents.length) (sourceFiles ++ [u.path]) with
          | .error e => .error e
          | .ok (imgs, views, bl, sf) =>
            .ok ({ uri := none, bufferView := some bufferViews.length,
                   mimeType := img.mimeType } :: imgs, views, bl, sf)
    | none =>
      match packImagesLoop fs rest bufferViews binLength sourceFiles with
      | .error e => .error e
      | .ok (imgs, views, bl, sf) => .ok (img :: imgs, views, bl, sf)

/-- The state of a `GLB` object after `pack()` succeeded, plus whether the
capacity warning was logged (`bin_length > 2**32 - 1`). -/
structure PackResult where
  description : GLTFDescription
  binLength : Nat
  sourceFiles : List String
  warned : Bool
deriving DecidableEq

/-- `GLB.pack`: run `_pack_buffers`, then `_pack_images`, replace
`description["buffers"]` with the single merged buffer, and log the
capacity warning when `bin_length > 2**32 - 1`. -/
def GLB.pack (fs : FileSystem) (d : GLTFDescription) : Except ToolError PackResult :=
  match packBuffersLoop d.buffers 0 0 [] (fun _ => none) with
  | .error e => .error e
  | .ok (binLength1, sourceFiles1, bufferOffsets) =>
    match packImagesLoop fs d.images
        (d.bufferViews.map (rewriteBufferView bufferOffsets)) binLength1 sourceFiles1 with
    | .error e => .error e
    | .ok (images2, bufferViews2, binLength2, sourceFiles2) =>
      .ok { description := { buffers := [{ byteLength := binLength2, uri := none }],
                             bufferViews := bufferViews2, images := images2,
                             others := d.others },
            binLength := binLength2, sourceFiles := sourceFiles2,
            warned := decide (2 ^ 32 - 1 < binLength2) }

/-- JSON string escaping as used by `json.dumps` on the strings that occur
here; quote and backslash are the escapes these payloads can need. -/
def jsonEscape (s : String) : String :=
  s.toList.foldl
    (fun acc c =>
      if c = '"' then acc ++ "\\\""
      else if c = '\\' then acc ++ "\\\\"
      else acc.push c) ""

/-- Serialize one buffer entry with compact separators. -/
def serializeBuffer (b : GLTFBufferDescription) : String :=
  "\x7b\"byteLength\":" ++ toString b.byteLength ++
    (match b.uri with
     | some u => ",\"uri\":\"" ++ jsonEscape u.raw ++ "\""
     | none => "") ++ "\x7d"

/-- Serialize one buffer view entry with compact separators. -/
def serializeBufferView (v : GLTFBufferViewDescription) : String :=
  "\x7b\"buffer\":" ++ toString v.buffer ++
    ",\"byteLength\":" ++ toString v.byteLength ++
    (match v.byteOffset with
     | some o => ",\"byteOffset\":" ++ toString o
     | none => "") ++ "\x7d"

/-- Serialize one image entry with compact separators. -/
def serializeImage (img : GLTFImageDescription) : String :=
  "\x7b\"mimeType\":" ++
    (match img.mimeType with
     | some mt => "\"" ++ jsonEscape mt ++ "\""
     | none => "null") ++
    (match img.bufferView with
     | some bv => ",\"bufferView\":" ++ toString bv
     | none => "") ++
    (match img.uri with
     | some u => ",\"uri\":\"" ++ jsonEscape u.raw ++ "\""
     | none => "") ++ "\x7d"

/-- `json.dumps(description, separators=(",", ":"))` for the modelled
description: the three known arrays followed by the untouched other fields
(whose values are carried as raw JSON text). -/
def serializeDescription (d : GLTFDescription) : String :=
  "\x7b\"buffers\":[" ++ String.intercalate "," (d.buffers.map serializeBuffer) ++
    "],\"bufferViews\":[" ++ String.intercalate "," (d.bufferViews.map serializeBufferView) ++
    "],\"images\":[" ++ String.intercalate "," (d.images.map serializeImage) ++
    "]" ++ String.join (d.others.map (fun kv => ",\"" ++ jsonEscape kv.1 ++ "\":" ++ kv.2)) ++
    "\x7d"

/-- UTF-8 encoding of one character. -/
def charUtf8 (c : Char) : List Nat :=
  let n := c.toNat
  if n < 128 then [n]
  else if n < 2048 then [192 + n / 64, 128 + n % 64]
  else if n < 65536 then [224 + n / 4096, 128 + n / 64 % 64, 128 + n % 64]
  else [240 + n / 262144, 128 + n / 4096 % 64, 128 + n / 64 % 64, 128 + n % 64]

/-- `str.encode("utf-8")` as a list of byte values. -/
def utf8Encode (s : String) : List Nat :=
  s.toList.flatMap charUtf8

/-- `int.to_bytes(4, byteorder="little")`: four bytes little-endian, or
`none` (OverflowError) when the value does not fit. -/
def toBytes4LE (n : Nat) : Option (List Nat) :=
  if n < 2 ^ 32 then
    some [n % 256, n / 256 % 256, n / 65536 % 256, n / 16777216 % 256]
  else none

/-- The read loop at the end of `GLB.write`: stream every source file in
order, concatenating its bytes; a missing file raises. -/
def readSourceFiles (fs : FileSystem) : List String → Except ToolError (List Nat)
  | [] => .ok []
  | f :: rest =>
    match fs f with
    | none => .error (.ioFailure f)
    | some contents =>
      match readSourceFiles fs rest with
      | .error e => .error e
      | .ok tail => .ok (contents ++ tail)

/-- The data of the BIN chunk: the streamed source bytes followed by zero
padding whose size is computed from the declared `bin_length` counter. -/
def binChunkData (fs : FileSystem) (sourceFiles : List String) (binLength : Nat) :
    Except ToolError (List Nat) :=
  match readSourceFiles fs sourceFiles with
  | .error e => .error e
  | .ok data => .ok (data ++ List.replicate (align_to_4 binLength - binLength) 0)

/-- The magic bytes `b"glTF"`. -/
def glbMagic : List Nat := [103, 108, 84, 70]

/-- The JSON chunk type tag `b"JSON"`. -/
def jsonChunkType : List Nat := [74, 83, 79, 78]

/-- The BIN chunk type tag `b"BIN\x00"`. -/
def binChunkType : List Nat := [66, 73, 78, 0]

/-- `GLB.write`: serialize the description, compute the aligned chunk
lengths and paddings, and emit header, JSON chunk and BIN chunk.  The
version field `(2).to_bytes(4, "little")` is the literal `[2, 0, 0, 0]`. -/
def GLB.write (fs : FileSystem) (r : PackResult) : Except ToolError (List Nat) :=
  let descriptionJson := utf8Encode (serializeDescription r.description)
  let alignedJsonLength := align_to_4 descriptionJson.length
  let jsonPadding := List.replicate (alignedJsonLength - descriptionJson.length) 32
  let alignedBinLength := align_to_4 r.binLength
  let binPadding := List.replicate (alignedBinLength - r.binLength) 0
  let totalLength := 12 + 8 + alignedJsonLength + 8 + alignedBinLength
  match toBytes4LE totalLength, toBytes4LE alignedJsonLength, toBytes4LE alignedBinLength with
  | some totalBytes, some jsonLenBytes, some binLenBytes =>
    match readSourceFiles fs r.sourceFiles with
    | .error e => .error e
    | .ok binData =>
      .ok ((glbMagic ++ [2, 0, 0, 0] ++ totalBytes)
        ++ (jsonLenBytes ++ jsonChunkType ++ descriptionJson ++ jsonPadding)
        ++ (binLenBytes ++ binChunkType ++ binData ++ binPadding))
  | _, _, _ => .error (.overflow (12 + 8 + alignedJsonLength + 8 + alignedBinLength))

/-- Top-level `pack(gltf, source_dir, dest)`: build the GLB, pack, then
open the destination and write.  The destination is opened only after
`glb.pack()` returned, so an error result means no output file exists;
a successful result carries exactly the bytes written to `dest`. -/
def pack (fs : FileSystem) (gltf : GLTFDescription) : Except ToolError (List Nat) :=
  match GLB.pack fs gltf with
  | .error e => .error e
  | .ok r => GLB.write fs r

/-- Decode the little-endian 32-bit field stored at `offset` in the
emitted byte list (0 when out of range). -/
def readU32LE (bytes : List Nat) (offset : Nat) : Nat :=
  match bytes.drop offset with
  | b0 :: b1 :: b2 :: b3 :: _ => b0 + 256 * b1 + 65536 * b2 + 16777216 * b3
  | _ => 0

/-- The local paths contributed by the buffers array, in order. -/
def bufferSourcePaths (bs : List GLTFBufferDescription) : List String :=
  bs.filterMap (fun b => b.uri.map (fun u => u.path))

/-- The local paths contributed by the images array, in order. -/
def imageSourcePaths (is : List GLTFImageDescription) : List String :=
  is.filterMap (fun i => i.uri.map (fun u => u.path))

/-- The sum of the declared `byteLength` fields of the buffers array. -/
def declaredLength (bs : List GLTFBufferDescription) : Nat :=
  (bs.map (fun b => b.byteLength)).sum

/-- The measured on-disk size of a path (0 when the file is absent). -/
def actualSize (fs : FileSystem) (p : String) : Nat :=
  ((fs p).getD []).length

/-- Total measured size of a list of paths. -/
def actualTotal (fs : FileSystem) (ps : List String) : Nat :=
  (ps.map (actualSize fs)).sum

/-- Placeholder buffer entry used with `List.getD`. -/
def defaultBuffer : GLTFBufferDescription := { byteLength := 0, uri := none }

/-- Placeholder buffer view used with `List.getD`. -/
def defaultView : GLTFBufferViewDescription :=
  { buffer := 0, byteLength := 0, byteOffset := none }

/-- A URI that `urlparse` maps to a bare local relative path. -/
def localUri (p : String) : ParsedUri :=
  { raw := p, scheme := "", netloc := "", path := p }


/-- Placeholder image entry used with `List.getD`. -/
def defaultImage : GLTFImageDescription :=
  { uri := none, bufferView := none, mimeType := none }

/-- An empty filesystem, for scenarios that never touch a file. -/
def wFsEmpty : FileSystem := fun _ => none

/-- A remote URI: non-empty scheme and host, as `urlparse` returns them. -/
def remoteUri1 : ParsedUri :=
  { raw := "https://example.com/x.bin", scheme := "https",
    netloc := "example.com", path := "/x.bin" }

/-- C1 counterexample input: a zero-length external buffer and a view on it
whose stale offset 5 survives the rewrite. -/
def cD1 : GLTFDescription :=
  { buffers := [{ byteLength := 0, uri := some (localUri "a.bin") }],
    bufferViews := [{ buffer := 0, byteLength := 0, byteOffset := some 5 }],
    images := [], others := [] }

/-- The packed state of `cD1`. -/
def cR1 : PackResult :=
  { description := { buffers := [{ byteLength := 0, uri := none }],
                     bufferViews := [{ buffer := 0, byteLength := 0, byteOffset := some 5 }],
                     images := [], others := [] },
    binLength := 0, sourceFiles := ["a.bin"], warned := false }

/-- A well-formed one-buffer description with an in-range view. -/
def wD1 : GLTFDescription :=
  { buffers := [{ byteLength := 4, uri := some (localUri "a.bin") }],
    bufferViews := [{ buffer := 0, byteLength := 2, byteOffset := some 1 }],
    images := [], others := [] }

/-- The packed state of `wD1`. -/
def wR1 : PackResult :=
  { description := { buffers := [{ byteLength := 4, uri := none }],
                     bufferViews := [{ buffer := 0, byteLength := 2, byteOffset := some 1 }],
                     images := [], others := [] },
    binLength := 4, sourceFiles := ["a.bin"], warned := false }

/-- The offset map produced while packing `wD1`. -/
def wM1 : Nat → Option Nat := insertOffset (fun _ => none) 0 0

/-- C2 counterexample input: a view whose buffer index 3 is out of range. -/
def cD2 : GLTFDescription :=
  { buffers := [{ byteLength := 0, uri := some (localUri "a.bin") }],
    bufferViews := [{ buffer := 3, byteLength := 0, byteOffset := none }],
    images := [], others := [] }

/-- The packed state of `cD2`: the dangling view keeps buffer index 3. -/
def cR2 : PackResult :=
  { description := { buffers := [{ byteLength := 0, uri := none }],
                     bufferViews := [{ buffer := 3, byteLength := 0, byteOffset := none }],
                     images := [], others := [] },
    binLength := 0, sourceFiles := ["a.bin"], warned := false }

/-- C4 counterexample input: a malformed buffer list (index 1 missing its
URI) together with a remote image URI. -/
def cD4 : GLTFDescription :=
  { buffers := [{ byteLength := 0, uri := none }, { byteLength := 0, uri := none }],
    bufferViews := [],
    images := [{ uri := some remoteUri1, bufferView := none, mimeType := none }],
    others := [] }

/-- C4 witness input: a single remote buffer URI. -/
def cD4w : GLTFDescription :=
  { buffers := [{ byteLength := 0, uri := some remoteUri1 }],
    bufferViews := [], images := [], others := [] }

/-- C5 counterexample input: a remote URI at index 0 followed by a no-URI
entry at index 1. -/
def cD5 : GLTFDescription :=
  { buffers := [{ byteLength := 0, uri := some remoteUri1 },
                { byteLength := 0, uri := none }],
    bufferViews := [], images := [], others := [] }

/-- C5 witness: the entries before the offending one. -/
def wPre5 : List GLTFBufferDescription :=
  [{ byteLength := 1, uri := some (localUri "a.bin") }]

/-- C5 witness: the no-URI entry at index 1. -/
def wB5 : GLTFBufferDescription := { byteLength := 2, uri := none }

/-- C5 witness input. -/
def wD5 : GLTFDescription :=
  { buffers := wPre5 ++ wB5 :: [], bufferViews := [], images := [], others := [] }

/-- C6 counterexample input: a merged payload of exactly 2 ^ 32 - 1 bytes. -/
def cD6 : GLTFDescription :=
  { buffers := [{ byteLength := 2 ^ 32 - 1, uri := none }],
    bufferViews := [], images := [], others := [] }

/-- C6 witness input: a merged payload of 2 ^ 32 bytes. -/
def wD6 : GLTFDescription :=
  { buffers := [{ byteLength := 2 ^ 32, uri := none }],
    bufferViews := [], images := [], others := [] }

/-- The packed state of `wD6`: warned. -/
def wR6 : PackResult :=
  { description := { buffers := [{ byteLength := 2 ^ 32, uri := none }],
                     bufferViews := [], images := [], others := [] },
    binLength := 2 ^ 32, sourceFiles := [], warned := true }

/-- A minimal already-packed state used to exercise `GLB.write`. -/
def wR3 : PackResult :=
  { description := { buffers := [{ byteLength := 0, uri := none }],
                     bufferViews := [], images := [], others := [] },
    binLength := 0, sourceFiles := [], warned := false }

/-- C8 witness filesystem. -/
def wFs8 : FileSystem := fun p => if p = "a.bin" then some [1, 2, 3] else none

/-- C8 witness input. -/
def wD8 : GLTFDescription :=
  { buffers := [{ byteLength := 3, uri := some (localUri "a.bin") }],
    bufferViews := [], images := [], others := [] }

/-- C9 witness input: an image that already has a buffer view and no URI,
plus an extra top-level field. -/
def wD9 : GLTFDescription :=
  { buffers := [], bufferViews := [],
    images := [{ uri := none, bufferView := some 7, mimeType := some "image/png" }],
    others := [("asset", "2.0")] }

/-- The packed state of `wD9`: image and extra field untouched. -/
def wR9 : PackResult :=
  { description := { buffers := [{ byteLength := 0, uri := none }],
                     bufferViews := [],
                     images := [{ uri := none, bufferView := some 7, mimeType := some "image/png" }],
                     others := [("asset", "2.0")] },
    binLength := 0, sourceFiles := [], warned := false }

/-- C7 witness filesystem: a 10-byte image and a 4-byte buffer. -/
def wFs7 : FileSystem := fun p =>
  if p = "pic.png" then some (List.replicate 10 7)
  else if p = "buf.bin" then some (List.replicate 4 3)
  else none

/-- C10 counterexample filesystem: the two buffer files have their declared
sizes swapped (6 and 4 bytes instead of 4 and 6). -/
def cFs10 : FileSystem := fun p =>
  if p = "a.bin" then some (List.replicate 6 0)
  else if p = "b.bin" then some (List.replicate 4 0)
  else none

/-- C10 counterexample input: declared byte lengths 4 and 6. -/
def cD10 : GLTFDescription :=
  { buffers := [{ byteLength := 4, uri := some (localUri "a.bin") },
                { byteLength := 6, uri := some (localUri "b.bin") }],
    bufferViews := [], images := [], others := [] }

/-- The packed state of `cD10`. -/
def cR10 : PackResult :=
  { description := { buffers := [{ byteLength := 10, uri := none }],
                     bufferViews := [], images := [], others := [] },
    binLength := 10, sourceFiles := ["a.bin", "b.bin"], warned := false }

/-- C10 witness filesystem: the declared size matches the actual size. -/
def wFs10 : FileSystem := fun p =>
  if p = "a.bin" then some (List.replicate 4 0) else none

/-- C10 witness input. -/
def wD10 : GLTFDescription :=
  { buffers := [{ byteLength := 4, uri := some (localUri "a.bin") }],
    bufferViews := [], images := [], others := [] }

/-- The packed state of `wD10`. -/
def wR10 : PackResult :=
  { description := { buffers := [{ byteLength := 4, uri := none }],
                     bufferViews := [], images := [], others := [] },
    binLength := 4, sourceFiles := ["a.bin"], warned := false }


theorem align_to_4_mod_four (n : Nat) : align_to_4 n % 4 = 0 := by
  unfold align_to_4; omega

theorem le_align_to_4 (n : Nat) : n ≤ align_to_4 n := by
  unfold align_to_4; omega

theorem declaredLength_nil : declaredLength [] = 0 := rfl

theorem declaredLength_cons (b : GLTFBufferDescription) (bs : List GLTFBufferDescription) :
    declaredLength (b :: bs) = b.byteLength + declaredLength bs := by
  simp [declaredLength]

theorem bufferSourcePaths_cons_some (b : GLTFBufferDescription)
    (bs : List GLTFBufferDescription) (u : ParsedUri) (h : b.uri = some u) :
    bufferSourcePaths (b :: bs) = u.path :: bufferSourcePaths bs := by
  simp [bufferSourcePaths, h]

theorem bufferSourcePaths_cons_none (b : GLTFBufferDescription)
    (bs : List GLTFBufferDescription) (h : b.uri = none) :
    bufferSourcePaths (b :: bs) = bufferSourcePaths bs := by
  simp [bufferSourcePaths, h]

theorem imageSourcePaths_cons_some (i : GLTFImageDescription)
    (is : List GLTFImageDescription) (u : ParsedUri) (h : i.uri = some u) :
    imageSourcePaths (i :: is) = u.path :: imageSourcePaths is := by
  simp [imageSourcePaths, h]

theorem imageSourcePaths_cons_none (i : GLTFImageDescription)
    (is : List GLTFImageDescription) (h : i.uri = none) :
    imageSourcePaths (i :: is) = imageSourcePaths is := by
  simp [imageSourcePaths, h]

theorem actualTotal_nil (fs : FileSystem) : actualTotal fs [] = 0 := rfl

theorem actualTotal_cons (fs : FileSystem) (p : String) (ps : List String) :
    actualTotal fs (p :: ps) = actualSize fs p + actualTotal fs ps := by
  simp [actualTotal]

theorem actualTotal_append (fs : FileSystem) (ps qs : List String) :
    actualTotal fs (ps ++ qs) = actualTotal fs ps + actualTotal fs qs := by
  simp [actualTotal]

/-- Full characterization of a successful run of the first `_pack_buffers`
loop: the final counter adds every declared `byteLength`, the source list
gains exactly the buffer URIs in order, the offset map is unchanged outside
the processed index range, and each processed index either was assigned the
running offset (when the entry has a local URI) or was the permitted
index-0 entry with no URI. -/
theorem packBuffersLoop_spec :
    ∀ (bs : List GLTFBufferDescription) (idx bl : Nat) (sf : List String)
      (m : Nat → Option Nat) (bl' : Nat) (sf' : List String) (m' : Nat → Option Nat),
    packBuffersLoop bs idx bl sf m = .ok (bl', sf', m') →
    bl' = bl + declaredLength bs ∧
    sf' = sf ++ bufferSourcePaths bs ∧
    (∀ k, k < idx ∨ idx + bs.length ≤ k → m' k = m k) ∧
    (∀ j, j < bs.length →
      match (bs.getD j defaultBuffer).uri with
      | some u => u.scheme = "" ∧ u.netloc = "" ∧
          m' (idx + j) = some (bl + declaredLength (bs.take j)) ∧
          bl + declaredLength (bs.take j) + (bs.getD j defaultBuffer).byteLength ≤ bl'
      | none => idx + j = 0 ∧ m' (idx + j) = m (idx + j)) := by
  intro bs
  induction bs with
  | nil =>
    intro idx bl sf m bl' sf' m' h
    simp only [packBuffersLoop, Except.ok.injEq, Prod.mk.injEq] at h
    obtain ⟨h1, h2, h3⟩ := h
    subst h1; subst h2; subst h3
    refine ⟨by simp [declaredLength_nil], by simp [bufferSourcePaths], fun k _ => rfl, ?_⟩
    intro j hj
    simp at hj
  | cons b rest ih =>
    intro idx bl sf m bl' sf' m' h
    unfold packBuffersLoop at h
    rcases hu : b.uri with _ | u
    · simp only [hu] at h
      by_cases hidx : idx = 0
      · subst hidx
        rw [if_neg (by omega : ¬((0 : Nat) ≠ 0))] at h
        obtain ⟨ihbl, ihsf, ihm, ihj⟩ := ih 1 (bl + b.byteLength) sf m bl' sf' m' h
        refine ⟨by rw [ihbl, declaredLength_cons]; omega,
               by rw [ihsf, bufferSourcePaths_cons_none b rest hu], ?_, ?_⟩
        · intro k hk
          simp only [List.length_cons] at hk
          exact ihm k (by omega)
        · intro j hj
          match j with
          | 0 =>
            simp only [List.getD_cons_zero, hu, Nat.add_zero]
            exact ⟨by trivial, ihm 0 (by omega)⟩
          | j' + 1 =>
            simp only [List.length_cons] at hj
            have ihcur := ihj j' (by omega)
            simp only [List.getD_cons_succ, List.take_succ_cons, declaredLength_cons]
            rcases hu' : (rest.getD j' defaultBuffer).uri with _ | u'
            · rw [hu'] at ihcur
              exact absurd ihcur.1 (by omega)
            · rw [hu'] at ihcur
              obtain ⟨hs, hn, hm, hbnd⟩ := ihcur
              refine ⟨hs, hn, ?_, by omega⟩
              rw [show 0 + (j' + 1) = 1 + j' by omega]
              rw [hm]
              congr 1
              omega
      · rw [if_pos hidx] at h
        simp at h
    · simp only [hu] at h
      by_cases hrem : u.scheme ≠ "" ∨ u.netloc ≠ ""
      · rw [if_pos hrem] at h
        simp at h
      · rw [if_neg hrem] at h
        push_neg at hrem
        obtain ⟨hs, hn⟩ := hrem
        obtain ⟨ihbl, ihsf, ihm, ihj⟩ :=
          ih (idx + 1) (bl + b.byteLength) (sf ++ [u.path]) (insertOffset m idx bl) bl' sf' m' h
        refine ⟨by rw [ihbl, declaredLength_cons]; omega,
               by rw [ihsf, bufferSourcePaths_cons_some b rest u hu, List.append_assoc]; rfl,
               ?_, ?_⟩
        · intro k hk
          simp only [List.length_cons] at hk
          rw [ihm k (by omega)]
          unfold insertOffset
          rw [if_neg (by omega)]
        · intro j hj
          match j with
          | 0 =>
            simp only [List.getD_cons_zero, hu, Nat.add_zero, List.take_zero,
              declaredLength_nil]
            refine ⟨hs, hn, ?_, ?_⟩
            · rw [ihm idx (by omega)]
              unfold insertOffset
              rw [if_pos rfl]
            · rw [ihbl]; omega
          | j' + 1 =>
            simp only [List.length_cons] at hj
            have ihcur := ihj j' (by omega)
            simp only [List.getD_cons_succ, List.take_succ_cons, declaredLength_cons]
            rcases hu' : (rest.getD j' defaultBuffer).uri with _ | u'
            · rw [hu'] at ihcur
              exact absurd ihcur.1 (by omega)
            · rw [hu'] at ihcur
              obtain ⟨hs', hn', hm, hbnd⟩ := ihcur
              refine ⟨hs', hn', ?_, by omega⟩
              rw [show idx + (j' + 1) = idx + 1 + j' by omega]
              rw [hm]
              congr 1
              omega

/-- Full characterization of a successful run of `_pack_images`: the
counter grows by the measured size of every image file, the source list
gains exactly the image URIs in order, the buffer view list is extended by
views that all target buffer 0 with offsets inside the final counter, and
every image without a `uri` is passed through unchanged at its position. -/
theorem packImagesLoop_spec (fs : FileSystem) :
    ∀ (imgs : List GLTFImageDescription) (views : List GLTFBufferViewDescription)
      (bl : Nat) (sf : List String)
      (imgs' : List GLTFImageDescription) (views' : List GLTFBufferViewDescription)
      (bl' : Nat) (sf' : List String),
    packImagesLoop fs imgs views bl sf = .ok (imgs', views', bl', sf') →
    bl' = bl + actualTotal fs (imageSourcePaths imgs) ∧
    sf' = sf ++ imageSourcePaths imgs ∧
    (∃ app, views' = views ++ app ∧
      ∀ v ∈ app, v.buffer = 0 ∧
        ∃ o, v.byteOffset = some o ∧ bl ≤ o ∧ o + v.byteLength ≤ bl') ∧
    List.Forall₂ (fun i i' => i.uri = none → i' = i) imgs imgs' := by
  intro imgs
  induction imgs with
  | nil =>
    intro views bl sf imgs' views' bl' sf' h
    simp only [packImagesLoop, Except.ok.injEq, Prod.mk.injEq] at h
    obtain ⟨h1, h2, h3, h4⟩ := h
    subst h1; subst h2; subst h3; subst h4
    exact ⟨by simp [imageSourcePaths, actualTotal], by simp [imageSourcePaths],
      ⟨[], by simp, by simp⟩, List.Forall₂.nil⟩
  | cons img rest ih =>
    intro views bl sf imgs' views' bl' sf' h
    unfold packImagesLoop at h
    rcases hu : img.uri with _ | u
    · simp only [hu] at h
      cases hrec : packImagesLoop fs rest views bl sf with
      | error e => simp only [hrec] at h; simp at h
      | ok q =>
        obtain ⟨imgs0, views0, bl0, sf0⟩ := q
        simp only [hrec] at h
        simp only [Except.ok.injEq, Prod.mk.injEq] at h
        obtain ⟨h1, h2, h3, h4⟩ := h
        subst h1; subst h2; subst h3; subst h4
        obtain ⟨ihbl, ihsf, ⟨app, happ, hbnd⟩, ihf⟩ :=
          ih views bl sf imgs0 views0 bl0 sf0 hrec
        refine ⟨by rw [ihbl, imageSourcePaths_cons_none img rest hu],
               by rw [ihsf, imageSourcePaths_cons_none img rest hu],
               ⟨app, happ, hbnd⟩, ?_⟩
        exact List.Forall₂.cons (fun _ => rfl) ihf
    · simp only [hu] at h
      by_cases hrem : u.scheme ≠ "" ∨ u.netloc ≠ ""
      · rw [if_pos hrem] at h
        simp at h
      · rw [if_neg hrem] at h
        cases hfs : fs u.path with
        | none => simp only [hfs] at h; exact Except.noConfusion h
        | some contents =>
          simp only [hfs] at h
          cases hrec : packImagesLoop fs rest
              (views ++ [{ buffer := 0, byteLength := contents.length,
                           byteOffset := some bl }])
              (bl + contents.length) (sf ++ [u.path]) with
          | error e => simp only [hrec] at h; simp at h
          | ok q =>
            obtain ⟨imgs0, views0, bl0, sf0⟩ := q
            simp only [hrec] at h
            simp only [Except.ok.injEq, Prod.mk.injEq] at h
            obtain ⟨h1, h2, h3, h4⟩ := h
            subst h1; subst h2; subst h3; subst h4
            obtain ⟨ihbl, ihsf, ⟨app, happ, hbnd⟩, ihf⟩ :=
              ih (views ++ [{ buffer := 0, byteLength := contents.length,
                              byteOffset := some bl }])
                (bl + contents.length) (sf ++ [u.path]) imgs0 views0 bl0 sf0 hrec
            have hsz : actualSize fs u.path = contents.length := by
              simp [actualSize, hfs]
            refine ⟨?_, ?_, ?_, ?_⟩
            · rw [ihbl, imageSourcePaths_cons_some img rest u hu, actualTotal_cons, hsz]
              omega
            · rw [ihsf, imageSourcePaths_cons_some img rest u hu, List.append_assoc]
              rfl
            · refine ⟨{ buffer := 0, byteLength := contents.length,
                        byteOffset := some bl } :: app, ?_, ?_⟩
              · rw [happ, List.append_assoc]
                rfl
              · intro v hv
                rcases List.mem_cons.mp hv with rfl | hv
                · refine ⟨rfl, bl, rfl, le_refl bl, ?_⟩
                  show bl + contents.length ≤ bl0
                  rw [ihbl]; omega
                · obtain ⟨hb0, o, ho, hlo, hhi⟩ := hbnd v hv
                  exact ⟨hb0, o, ho, by omega, hhi⟩
            · refine List.Forall₂.cons ?_ ihf
              intro hnone
              rw [hu] at hnone
              cases hnone

/-- A successful streaming read concatenates the actual on-disk bytes of
the source files in order. -/
theorem readSourceFiles_spec (fs : FileSystem) :
    ∀ (files : List String) (bin : List Nat),
    readSourceFiles fs files = .ok bin →
    bin = (files.map (fun p => (fs p).getD [])).flatten := by
  intro files
  induction files with
  | nil =>
    intro bin h
    simp only [readSourceFiles, Except.ok.injEq] at h
    subst h
    rfl
  | cons f rest ih =>
    intro bin h
    unfold readSourceFiles at h
    cases hfs : fs f with
    | none => simp only [hfs] at h; exact Except.noConfusion h
    | some contents =>
      simp only [hfs] at h
      cases hrec : readSourceFiles fs rest with
      | error e => simp only [hrec] at h; exact Except.noConfusion h
      | ok tail =>
        simp only [hrec, Except.ok.injEq] at h
        subst h
        rw [ih tail hrec]
        simp [hfs]

/-- The byte count of a successful read is the total measured size. -/
theorem readSourceFiles_length (fs : FileSystem) (files : List String)
    (bin : List Nat) (h : readSourceFiles fs files = .ok bin) :
    bin.length = actualTotal fs files := by
  rw [readSourceFiles_spec fs files bin h]
  simp only [List.length_flatten, List.map_map]
  rfl

/-- Destructuring a successful `GLB.pack` into its two loop runs. -/
theorem GLB.pack_ok (fs : FileSystem) (d : GLTFDescription) (r : PackResult)
    (h : GLB.pack fs d = .ok r) :
    ∃ bl1 sf1 m,
      packBuffersLoop d.buffers 0 0 [] (fun _ => none) = .ok (bl1, sf1, m) ∧
      ∃ imgs2 views2,
        packImagesLoop fs d.images (d.bufferViews.map (rewriteBufferView m)) bl1 sf1
          = .ok (imgs2, views2, r.binLength, r.sourceFiles) ∧
        r.description = { buffers := [{ byteLength := r.binLength, uri := none }],
                          bufferViews := views2, images := imgs2, others := d.others } ∧
        r.warned = decide (2 ^ 32 - 1 < r.binLength) := by
  unfold GLB.pack at h
  cases hb : packBuffersLoop d.buffers 0 0 [] (fun _ => none) with
  | error e => simp only [hb] at h; exact Except.noConfusion h
  | ok t =>
    obtain ⟨bl1, sf1, m⟩ := t
    simp only [hb] at h
    cases hi : packImagesLoop fs d.images (d.bufferViews.map (rewriteBufferView m)) bl1 sf1 with
    | error e => simp only [hi] at h; exact Except.noConfusion h
    | ok q =>
      obtain ⟨imgs2, views2, bl2, sf2⟩ := q
      simp only [hi, Except.ok.injEq] at h
      subst h
      exact ⟨bl1, sf1, m, rfl, imgs2, views2, hi, rfl, rfl⟩

/-- An error from `GLB.pack` propagates to the top-level `pack`, which then
never opens the destination file. -/
theorem pack_error_of_pack_error (fs : FileSystem) (gltf : GLTFDescription)
    (e : ToolError) (h : GLB.pack fs gltf = .error e) :
    pack fs gltf = .error e := by
  unfold pack
  rw [h]

/-- A buffers array containing a remote URI always makes the buffers loop
fail with some error. -/
theorem packBuffersLoop_error_of_remote :
    ∀ (bs : List GLTFBufferDescription) (idx bl : Nat) (sf : List String)
      (m : Nat → Option Nat),
    (∃ b ∈ bs, ∃ u, b.uri = some u ∧ (u.scheme ≠ "" ∨ u.netloc ≠ "")) →
    ∃ e, packBuffersLoop bs idx bl sf m = .error e := by
  intro bs
  induction bs with
  | nil =>
    intro idx bl sf m h
    simp at h
  | cons b rest ih =>
    intro idx bl sf m h
    unfold packBuffersLoop
    rcases hu : b.uri with _ | u
    all_goals simp only [hu]
    · by_cases hidx : idx = 0
      · subst hidx
        rw [if_neg (by omega : ¬((0 : Nat) ≠ 0))]
        apply ih
        obtain ⟨b', hb', u', hu', hrem'⟩ := h
        rcases List.mem_cons.mp hb' with rfl | hb'
        · rw [hu] at hu'; exact Option.noConfusion hu'
        · exact ⟨b', hb', u', hu', hrem'⟩
      · rw [if_pos hidx]
        exact ⟨.malformedDescription, rfl⟩
    · by_cases hrem : u.scheme ≠ "" ∨ u.netloc ≠ ""
      · rw [if_pos hrem]
        exact ⟨.unsupportedReference u, rfl⟩
      · rw [if_neg hrem]
        apply ih
        obtain ⟨b', hb', u', hu', hrem'⟩ := h
        rcases List.mem_cons.mp hb' with rfl | hb'
        · rw [hu] at hu'
          injection hu' with hu'
          subst hu'
          exact absurd hrem' hrem
        · exact ⟨b', hb', u', hu', hrem'⟩

/-- An images array containing a remote URI always makes the images loop
fail with some error. -/
theorem packImagesLoop_error_of_remote (fs : FileSystem) :
    ∀ (imgs : List GLTFImageDescription) (views : List GLTFBufferViewDescription)
      (bl : Nat) (sf : List String),
    (∃ i ∈ imgs, ∃ u, i.uri = some u ∧ (u.scheme ≠ "" ∨ u.netloc ≠ "")) →
    ∃ e, packImagesLoop fs imgs views bl sf = .error e := by
  intro imgs
  induction imgs with
  | nil =>
    intro views bl sf h
    simp at h
  | cons img rest ih =>
    intro views bl sf h
    unfold packImagesLoop
    rcases hu : img.uri with _ | u
    all_goals simp only [hu]
    · obtain ⟨i', hi', u', hu', hrem'⟩ := h
      have hrest : ∃ i ∈ rest, ∃ u, i.uri = some u ∧ (u.scheme ≠ "" ∨ u.netloc ≠ "") := by
        rcases List.mem_cons.mp hi' with rfl | hi'
        · rw [hu] at hu'; exact Option.noConfusion hu'
        · exact ⟨i', hi', u', hu', hrem'⟩
      obtain ⟨e, he⟩ := ih views bl sf hrest
      rw [he]
      exact ⟨e, rfl⟩
    · by_cases hrem : u.scheme ≠ "" ∨ u.netloc ≠ ""
      · rw [if_pos hrem]
        exact ⟨.unsupportedReference u, rfl⟩
      · rw [if_neg hrem]
        cases hfs : fs u.path with
        | none => exact ⟨.ioFailure u.path, rfl⟩
        | some contents =>
          have hrest : ∃ i ∈ rest, ∃ u, i.uri = some u ∧ (u.scheme ≠ "" ∨ u.netloc ≠ "") := by
            obtain ⟨i', hi', u', hu', hrem'⟩ := h
            rcases List.mem_cons.mp hi' with rfl | hi'
            · rw [hu] at hu'
              injection hu' with hu'
              subst hu'
              exact absurd hrem' hrem
            · exact ⟨i', hi', u', hu', hrem'⟩
          obtain ⟨e, he⟩ := ih
            (views ++ [{ buffer := 0, byteLength := contents.length,
                         byteOffset := some bl }])
            (bl + contents.length) (sf ++ [u.path]) hrest
          refine ⟨e, ?_⟩
          simp [he]

/-- A no-URI buffer entry at a positive index makes the buffers loop fail
with the malformed-description error, provided every earlier entry with a
URI has a plain local one (so no unsupported-reference error fires first). -/
theorem packBuffersLoop_malformed :
    ∀ (pre : List GLTFBufferDescription) (b : GLTFBufferDescription)
      (post : List GLTFBufferDescription) (idx bl : Nat) (sf : List String)
      (m : Nat → Option Nat),
    b.uri = none → idx + pre.length ≠ 0 →
    (∀ b' ∈ pre, ∀ u, b'.uri = some u → u.scheme = "" ∧ u.netloc = "") →
    packBuffersLoop (pre ++ b :: post) idx bl sf m = .error .malformedDescription := by
  intro pre
  induction pre with
  | nil =>
    intro b post idx bl sf m hb hidx _
    simp only [List.nil_append, List.length_nil, Nat.add_zero] at hidx ⊢
    unfold packBuffersLoop
    simp only [hb]
    rw [if_pos hidx]
  | cons p pre' ih =>
    intro b post idx bl sf m hb hidx hloc
    rw [List.cons_append]
    unfold packBuffersLoop
    rcases hp : p.uri with _ | u
    all_goals simp only [hp]
    · by_cases hidx0 : idx = 0
      · subst hidx0
        rw [if_neg (by omega : ¬((0 : Nat) ≠ 0))]
        exact ih b post (0 + 1) (bl + p.byteLength) sf m hb (by omega)
          (fun b' hb' u hu => hloc b' (List.mem_cons_of_mem p hb') u hu)
      · rw [if_pos hidx0]
    · have hu := hloc p (List.mem_cons_self p pre') u hp
      rw [if_neg (by simp [hu.1, hu.2])]
      exact ih b post (idx + 1) (bl + p.byteLength) (sf ++ [u.path])
        (insertOffset m idx bl) hb (by omega)
        (fun b' hb' u' hu' => hloc b' (List.mem_cons_of_mem p hb') u' hu')

theorem toBytes4LE_some (n : Nat) (bs : List Nat) (h : toBytes4LE n = some bs) :
    n < 2 ^ 32 ∧ bs = [n % 256, n / 256 % 256, n / 65536 % 256, n / 16777216 % 256] := by
  unfold toBytes4LE at h
  by_cases hn : n < 2 ^ 32
  · rw [if_pos hn] at h
    injection h with h
    exact ⟨hn, h.symm⟩
  · rw [if_neg hn] at h
    exact Option.noConfusion h

/-- Reading the 32-bit field right after a prefix of length `k` recovers the
encoded value. -/
theorem readU32LE_encode (pre : List Nat) (n : Nat) (hn : n < 2 ^ 32)
    (rest : List Nat) (k : Nat) (hk : pre.length = k) :
    readU32LE (pre ++ ([n % 256, n / 256 % 256, n / 65536 % 256, n / 16777216 % 256] ++ rest)) k
      = n := by
  unfold readU32LE
  rw [List.drop_left' hk]
  show n % 256 + 256 * (n / 256 % 256) + 65536 * (n / 65536 % 256)
      + 16777216 * (n / 16777216 % 256) = n
  omega

/-- Decomposition of a successful `GLB.write`: the streamed source bytes
exist, the three header fields decode to the aligned JSON length, the
aligned BIN length and the total length, and the actual file size is the
fixed overhead plus JSON chunk plus actual BIN bytes plus BIN padding. -/
theorem GLB.write_fields (fs : FileSystem) (r : PackResult) (out : List Nat)
    (h : GLB.write fs r = .ok out) :
    ∃ bin, readSourceFiles fs r.sourceFiles = .ok bin ∧
      readU32LE out 12 = align_to_4 (utf8Encode (serializeDescription r.description)).length ∧
      readU32LE out (20 + align_to_4 (utf8Encode (serializeDescription r.description)).length)
        = align_to_4 r.binLength ∧
      readU32LE out 8
        = 12 + 8 + align_to_4 (utf8Encode (serializeDescription r.description)).length + 8
          + align_to_4 r.binLength ∧
      out.length = 28 + align_to_4 (utf8Encode (serializeDescription r.description)).length
        + bin.length + (align_to_4 r.binLength - r.binLength) := by
  simp only [GLB.write] at h
  set J := utf8Encode (serializeDescription r.description) with hJdef
  set AJ := align_to_4 J.length with hAJdef
  set AB := align_to_4 r.binLength with hABdef
  cases hT : toBytes4LE (12 + 8 + AJ + 8 + AB) with
  | none => simp only [hT] at h; exact Except.noConfusion h
  | some totalBytes =>
  cases hJb : toBytes4LE AJ with
  | none => simp only [hT, hJb] at h; exact Except.noConfusion h
  | some jsonLenBytes =>
  cases hBb : toBytes4LE AB with
  | none => simp only [hT, hJb, hBb] at h; exact Except.noConfusion h
  | some binLenBytes =>
  simp only [hT, hJb, hBb] at h
  cases hR : readSourceFiles fs r.sourceFiles with
  | error e => simp only [hR] at h; exact Except.noConfusion h
  | ok bin =>
  simp only [hR, Except.ok.injEq] at h
  subst h
  obtain ⟨hTlt, hTsh⟩ := toBytes4LE_some _ _ hT
  obtain ⟨hJlt, hJsh⟩ := toBytes4LE_some _ _ hJb
  obtain ⟨hBlt, hBsh⟩ := toBytes4LE_some _ _ hBb
  subst hTsh; subst hJsh; subst hBsh
  have hle : J.length ≤ AJ := le_align_to_4 J.length
  refine ⟨bin, rfl, ?_, ?_, ?_, ?_⟩
  · have hsplit :
        (glbMagic ++ [2, 0, 0, 0]
            ++ [(12 + 8 + AJ + 8 + AB) % 256, (12 + 8 + AJ + 8 + AB) / 256 % 256,
                (12 + 8 + AJ + 8 + AB) / 65536 % 256, (12 + 8 + AJ + 8 + AB) / 16777216 % 256])
          ++ ([AJ % 256, AJ / 256 % 256, AJ / 65536 % 256, AJ / 16777216 % 256]
              ++ jsonChunkType ++ J ++ List.replicate (AJ - J.length) 32)
          ++ ([AB % 256, AB / 256 % 256, AB / 65536 % 256, AB / 16777216 % 256]
              ++ binChunkType ++ bin ++ List.replicate (AB - r.binLength) 0)
        = (glbMagic ++ [2, 0, 0, 0]
            ++ [(12 + 8 + AJ + 8 + AB) % 256, (12 + 8 + AJ + 8 + AB) / 256 % 256,
                (12 + 8 + AJ + 8 + AB) / 65536 % 256, (12 + 8 + AJ + 8 + AB) / 16777216 % 256])
          ++ ([AJ % 256, AJ / 256 % 256, AJ / 65536 % 256, AJ / 16777216 % 256]
              ++ (jsonChunkType ++ J ++ List.replicate (AJ - J.length) 32
                  ++ ([AB % 256, AB / 256 % 256, AB / 65536 % 256, AB / 16777216 % 256]
                      ++ binChunkType ++ bin ++ List.replicate (AB - r.binLength) 0))) := by
      simp [glbMagic, jsonChunkType, binChunkType, List.append_assoc]
    rw [hsplit]
    exact readU32LE_encode _ AJ hJlt _ 12 (by simp [glbMagic])
  · have hsplit :
        (glbMagic ++ [2, 0, 0, 0]
            ++ [(12 + 8 + AJ + 8 + AB) % 256, (12 + 8 + AJ + 8 + AB) / 256 % 256,
                (12 + 8 + AJ + 8 + AB) / 65536 % 256, (12 + 8 + AJ + 8 + AB) / 16777216 % 256])
          ++ ([AJ % 256, AJ / 256 % 256, AJ / 65536 % 256, AJ / 16777216 % 256]
              ++ jsonChunkType ++ J ++ List.replicate (AJ - J.length) 32)
          ++ ([AB % 256, AB / 256 % 256, AB / 65536 % 256, AB / 16777216 % 256]
              ++ binChunkType ++ bin ++ List.replicate (AB - r.binLength) 0)
        = (glbMagic ++ [2, 0, 0, 0]
            ++ [(12 + 8 + AJ + 8 + AB) % 256, (12 + 8 + AJ + 8 + AB) / 256 % 256,
                (12 + 8 + AJ + 8 + AB) / 65536 % 256, (12 + 8 + AJ + 8 + AB) / 16777216 % 256]
            ++ ([AJ % 256, AJ / 256 % 256, AJ / 65536 % 256, AJ / 16777216 % 256]
                ++ jsonChunkType ++ J ++ List.replicate (AJ - J.length) 32))
          ++ ([AB % 256, AB / 256 % 256, AB / 65536 % 256, AB / 16777216 % 256]
              ++ (binChunkType ++ bin ++ List.replicate (AB - r.binLength) 0)) := by
      simp [glbMagic, jsonChunkType, binChunkType, List.append_assoc]
    rw [hsplit]
    exact readU32LE_encode _ AB hBlt _ (20 + AJ)
      (by simp [glbMagic, jsonChunkType, List.length_append, List.length_replicate]; omega)
  · have hsplit :
        (glbMagic ++ [2, 0, 0, 0]
            ++ [(12 + 8 + AJ + 8 + AB) % 256, (12 + 8 + AJ + 8 + AB) / 256 % 256,
                (12 + 8 + AJ + 8 + AB) / 65536 % 256, (12 + 8 + AJ + 8 + AB) / 16777216 % 256])
          ++ ([AJ % 256, AJ / 256 % 256, AJ / 65536 % 256, AJ / 16777216 % 256]
              ++ jsonChunkType ++ J ++ List.replicate (AJ - J.length) 32)
          ++ ([AB % 256, AB / 256 % 256, AB / 65536 % 256, AB / 16777216 % 256]
              ++ binChunkType ++ bin ++ List.replicate (AB - r.binLength) 0)
        = (glbMagic ++ [2, 0, 0, 0])
          ++ ([(12 + 8 + AJ + 8 + AB) % 256, (12 + 8 + AJ + 8 + AB) / 256 % 256,
               (12 + 8 + AJ + 8 + AB) / 65536 % 256, (12 + 8 + AJ + 8 + AB) / 16777216 % 256]
              ++ (([AJ % 256, AJ / 256 % 256, AJ / 65536 % 256, AJ / 16777216 % 256]
                   ++ jsonChunkType ++ J ++ List.replicate (AJ - J.length) 32)
                  ++ ([AB % 256, AB / 256 % 256, AB / 65536 % 256, AB / 16777216 % 256]
                      ++ binChunkType ++ bin ++ List.replicate (AB - r.binLength) 0))) := by
      simp [glbMagic, jsonChunkType, binChunkType, List.append_assoc]
    rw [hsplit]
    exact readU32LE_encode _ (12 + 8 + AJ + 8 + AB) hTlt _ 8 (by simp [glbMagic])
  · simp only [List.length_append, List.length_replicate, List.length_cons,
      List.length_nil, glbMagic, jsonChunkType, binChunkType]
    omega

/-- C3: for every successful `write()`, the emitted `jsonChunkLength`
(bytes 12..15) and `binChunkLength` (the 4 bytes after the JSON chunk) are
multiples of 4 — each chunk is padded up to the next multiple of 4, the
fields holding `align_to_4` of the JSON byte length and of `bin_length` —
and the emitted `totalLength` field (bytes 8..11) equals
`12 + 8 + jsonChunkLength + 8 + binChunkLength`. -/
theorem c3_alignment_total_length (fs : FileSystem) (r : PackResult) (out : List Nat)
    (h : GLB.write fs r = .ok out) :
    readU32LE out 12 % 4 = 0 ∧
    readU32LE out (20 + readU32LE out 12) % 4 = 0 ∧
    readU32LE out 8 = 12 + 8 + readU32LE out 12 + 8 + readU32LE out (20 + readU32LE out 12) ∧
    readU32LE out 12 = align_to_4 (utf8Encode (serializeDescription r.description)).length ∧
    readU32LE out (20 + readU32LE out 12) = align_to_4 r.binLength := by
  obtain ⟨bin, hbin, h12, h20, h8, hlen⟩ := GLB.write_fields fs r out h
  refine ⟨?_, ?_, ?_, h12, ?_⟩
  · rw [h12]; exact align_to_4_mod_four _
  · rw [h12, h20]; exact align_to_4_mod_four _
  · rw [h12, h20, h8]
  · rw [h12, h20]

/-- C3 witness: a concrete successful write. -/
theorem c3_alignment_total_length_witness :
    readU32LE ((GLB.write wFsEmpty wR3).toOption.getD []) 12 % 4 = 0 :=
  (c3_alignment_total_length wFsEmpty wR3 ((GLB.write wFsEmpty wR3).toOption.getD []) rfl).1

/-- C6 (amended): after a successful `pack()`, the capacity warning was
logged exactly when the final merged length strictly exceeds `2 ^ 32 - 1`
(the code tests `bin_length > 2 ** 32 - 1`, so a payload of exactly
`2 ^ 32 - 1` bytes does not warn); packing completed without error either
way, the condition being a log line and never a raise. -/
theorem c6_capacity_warning (fs : FileSystem) (d : GLTFDescription) (r : PackResult)
    (h : GLB.pack fs d = .ok r) :
    r.warned = true ↔ 2 ^ 32 - 1 < r.binLength := by
  obtain ⟨bl1, sf1, m, hb, imgs2, views2, hi, hdesc, hw⟩ := GLB.pack_ok fs d r h
  rw [hw]
  exact decide_eq_true_iff

/-- C6 witness: a 2 ^ 32-byte payload packs successfully and warns. -/
theorem c6_capacity_warning_witness : wR6.warned = true :=
  (c6_capacity_warning wFsEmpty wD6 wR6 rfl).mpr (by decide)

/-- C6 counterexample: at exactly `2 ^ 32 - 1` bytes — the boundary the
claim says already warns — `pack()` completes with the warning flag off. -/
theorem c6_boundary_counterexample :
    GLB.pack wFsEmpty cD6
      = .ok { description := { buffers := [{ byteLength := 2 ^ 32 - 1, uri := none }],
                               bufferViews := [], images := [], others := [] },
              binLength := 2 ^ 32 - 1, sourceFiles := [], warned := false } := by
  rfl

/-- C8: the packer is a pure function of the description and of the bytes
of the referenced files: two runs over filesystems serving byte-identical
contents produce byte-identical GLB output (including the error case). -/
theorem c8_determinism (gltf : GLTFDescription) (fs1 fs2 : FileSystem)
    (h : ∀ p, fs1 p = fs2 p) :
    pack fs1 gltf = pack fs2 gltf := by
  have heq : fs1 = fs2 := funext h
  rw [heq]

/-- C8 witness: re-packing a concrete input. -/
theorem c8_determinism_witness : pack wFs8 wD8 = pack wFs8 wD8 :=
  c8_determinism wD8 wFs8 wFs8 (fun _ => rfl)

/-- C9: `pack()` mutates only the `buffers`, `bufferViews` and `images`
arrays; every other top-level field survives untouched, and an image entry
carrying no `uri` (in particular one already holding a `bufferView`) is
passed through completely unchanged at its position. -/
theorem c9_frame (fs : FileSystem) (d : GLTFDescription) (r : PackResult)
    (h : GLB.pack fs d = .ok r) :
    r.description.others = d.others ∧
    List.Forall₂ (fun i i' => i.uri = none → i' = i) d.images r.description.images := by
  obtain ⟨bl1, sf1, m, hb, imgs2, views2, hi, hdesc, hw⟩ := GLB.pack_ok fs d r h
  obtain ⟨_, _, _, hf⟩ := packImagesLoop_spec fs d.images
    (d.bufferViews.map (rewriteBufferView m)) bl1 sf1 imgs2 views2
    r.binLength r.sourceFiles hi
  rw [hdesc]
  exact ⟨rfl, hf⟩

/-- C9 witness: a no-URI image and an extra field survive packing. -/
theorem c9_frame_witness : wR9.description.others = wD9.others :=
  (c9_frame wFsEmpty wD9 wR9 rfl).1

/-- C2 (amended): after a successful `pack()`, `description.buffers` is
exactly the one-element array holding the final merged length; every buffer
view whose original `buffer` index refers to an entry of the original
buffers array ends with `buffer = 0`, and every newly appended image view
has `buffer = 0`.  (A view whose `buffer` index dangles past the end of the
buffers array is left untouched and may keep a nonzero `buffer`.) -/
theorem c2_single_buffer (fs : FileSystem) (d : GLTFDescription) (r : PackResult)
    (h : GLB.pack fs d = .ok r) :
    r.description.buffers = [{ byteLength := r.binLength, uri := none }] ∧
    (∀ j, j < d.bufferViews.length →
      (d.bufferViews.getD j defaultView).buffer < d.buffers.length →
      (r.description.bufferViews.getD j defaultView).buffer = 0) ∧
    (∀ v ∈ r.description.bufferViews.drop d.bufferViews.length, v.buffer = 0) := by
  obtain ⟨bl1, sf1, m, hb, imgs2, views2, hi, hdesc, hw⟩ := GLB.pack_ok fs d r h
  obtain ⟨hbl1, hsf1, hmout, hmj⟩ :=
    packBuffersLoop_spec d.buffers 0 0 [] (fun _ => none) bl1 sf1 m hb
  obtain ⟨hbl2, hsf2, ⟨app, happ, hbnd⟩, hf⟩ := packImagesLoop_spec fs d.images
    (d.bufferViews.map (rewriteBufferView m)) bl1 sf1 imgs2 views2
    r.binLength r.sourceFiles hi
  refine ⟨by rw [hdesc], ?_, ?_⟩
  · intro j hj hlt
    obtain ⟨v, hv⟩ : ∃ v, d.bufferViews[j]? = some v :=
      ⟨d.bufferViews.get ⟨j, hj⟩, by rw [List.getElem?_eq_getElem hj]; rfl⟩
    rw [List.getD_eq_getElem?_getD, hv, Option.getD_some] at hlt
    have hjm : j < (d.bufferViews.map (rewriteBufferView m)).length := by
      simpa using hj
    simp only [hdesc]
    rw [happ, List.getD_eq_getElem?_getD, List.getElem?_append_left hjm,
      List.getElem?_map, hv, Option.map_some', Option.getD_some]
    cases hm : m v.buffer with
    | some off =>
      unfold rewriteBufferView
      rw [hm]
    | none =>
      unfold rewriteBufferView
      rw [hm]
      have hj2 := hmj v.buffer hlt
      rcases hu : (d.buffers.getD v.buffer defaultBuffer).uri with _ | u
      · rw [hu] at hj2
        obtain ⟨h0, _⟩ := hj2
        show v.buffer = 0
        omega
      · rw [hu] at hj2
        obtain ⟨_, _, hval, _⟩ := hj2
        rw [Nat.zero_add] at hval
        rw [hval] at hm
        exact Option.noConfusion hm
  · intro v hv
    simp only [hdesc] at hv
    rw [happ, List.drop_left' (by simp)] at hv
    exact (hbnd v hv).1

/-- C2 counterexample: a view referencing the out-of-range buffer index 3
keeps `buffer = 3` after a successful `pack()`, so not every entry of
`bufferViews` ends with `buffer = 0`. -/
theorem c2_dangling_view_buffer :
    GLB.pack wFsEmpty cD2 = .ok cR2 ∧
    (cR2.description.bufferViews.getD 0 defaultView).buffer = 3 ∧ (3 : Nat) ≠ 0 :=
  ⟨rfl, rfl, by omega⟩

/-- C2 witness: the merged single buffer of a concrete pack. -/
theorem c2_single_buffer_witness :
    wR1.description.buffers = [{ byteLength := wR1.binLength, uri := none }] :=
  (c2_single_buffer wFsEmpty wD1 wR1 rfl).1

/-- C4 (amended): a description containing a buffer or image whose URI
parses with a non-empty scheme or host always makes `pack()` raise — with
the unsupported-reference error unless an earlier entry in processing order
raises its own error first (a no-URI buffer at positive index, or a missing
image file) — and the top-level `pack` fails before the destination is
opened, so no output file is created. -/
theorem c4_remote_uri_rejected (fs : FileSystem) (d : GLTFDescription)
    (h : (∃ b ∈ d.buffers, ∃ u, b.uri = some u ∧ (u.scheme ≠ "" ∨ u.netloc ≠ "")) ∨
         (∃ i ∈ d.images, ∃ u, i.uri = some u ∧ (u.scheme ≠ "" ∨ u.netloc ≠ ""))) :
    (∃ e, GLB.pack fs d = .error e) ∧ (∃ e, pack fs d = .error e) := by
  have hmain : ∃ e, GLB.pack fs d = .error e := by
    rcases h with hbuf | himg
    · obtain ⟨e, he⟩ := packBuffersLoop_error_of_remote d.buffers 0 0 [] (fun _ => none) hbuf
      refine ⟨e, ?_⟩
      unfold GLB.pack
      simp only [he]
    · cases hbl : packBuffersLoop d.buffers 0 0 [] (fun _ => none) with
      | error e =>
        refine ⟨e, ?_⟩
        unfold GLB.pack
        simp only [hbl]
      | ok t =>
        obtain ⟨bl1, sf1, m⟩ := t
        obtain ⟨e, he⟩ := packImagesLoop_error_of_remote fs d.images
          (d.bufferViews.map (rewriteBufferView m)) bl1 sf1 himg
        refine ⟨e, ?_⟩
        unfold GLB.pack
        simp only [hbl, he]
  obtain ⟨e, he⟩ := hmain
  exact ⟨⟨e, he⟩, ⟨e, pack_error_of_pack_error fs d e he⟩⟩

/-- C4 counterexample: the description holds a remote image URI, yet
`pack()` raises the malformed-description error (for the no-URI buffer at
index 1), not the unsupported-reference error the claim promises. -/
theorem c4_error_kind_counterexample :
    GLB.pack wFsEmpty cD4 = .error .malformedDescription ∧
    (cD4.images.getD 0 defaultImage).uri = some remoteUri1 ∧
    remoteUri1.scheme ≠ "" ∧
    ToolError.malformedDescription ≠ ToolError.unsupportedReference remoteUri1 :=
  ⟨rfl, rfl, by decide, by decide⟩

/-- C4 witness: a remote buffer URI makes both `GLB.pack` and the
top-level `pack` fail. -/
theorem c4_remote_uri_rejected_witness :
    (∃ e, GLB.pack wFsEmpty cD4w = .error e) ∧ (∃ e, pack wFsEmpty cD4w = .error e) :=
  c4_remote_uri_rejected wFsEmpty cD4w
    (Or.inl ⟨{ byteLength := 0, uri := some remoteUri1 }, by simp [cD4w],
      remoteUri1, rfl, Or.inl (by decide)⟩)

/-- C5 (amended): a buffers array with a no-URI entry at a positive index
makes `pack()` fail — with the malformed-description error whenever every
earlier entry carrying a URI has a plain local one (an earlier remote URI
raises the unsupported-reference error first); and a no-URI entry at index
0 is permitted: it contributes its declared `byteLength` to the accumulated
counter while appending nothing to the source-file list. -/
theorem c5_missing_uri_rejected :
    (∀ (fs : FileSystem) (d : GLTFDescription) (pre : List GLTFBufferDescription)
       (b : GLTFBufferDescription) (post : List GLTFBufferDescription),
      d.buffers = pre ++ b :: post → b.uri = none → pre ≠ [] →
      (∀ x ∈ pre, ∀ u, x.uri = some u → u.scheme = "" ∧ u.netloc = "") →
      GLB.pack fs d = .error .malformedDescription) ∧
    (∀ (fs : FileSystem) (d : GLTFDescription) (r : PackResult)
       (b0 : GLTFBufferDescription) (rest : List GLTFBufferDescription),
      d.buffers = b0 :: rest → b0.uri = none → GLB.pack fs d = .ok r →
      b0.byteLength ≤ r.binLength ∧
      r.sourceFiles = bufferSourcePaths rest ++ imageSourcePaths d.images) := by
  constructor
  · intro fs d pre b post hbs hb hpre hloc
    have hlen : 0 < pre.length := List.length_pos.mpr hpre
    unfold GLB.pack
    rw [hbs]
    rw [packBuffersLoop_malformed pre b post 0 0 [] (fun _ => none) hb (by omega) hloc]
  · intro fs d r b0 rest hbs hb0 hp
    obtain ⟨bl1, sf1, m, hbl, imgs2, views2, hi, hdesc, hw⟩ := GLB.pack_ok fs d r hp
    obtain ⟨hbl1, hsf1, _, _⟩ :=
      packBuffersLoop_spec d.buffers 0 0 [] (fun _ => none) bl1 sf1 m hbl
    obtain ⟨hbl2, hsf2, _, _⟩ := packImagesLoop_spec fs d.images
      (d.bufferViews.map (rewriteBufferView m)) bl1 sf1 imgs2 views2
      r.binLength r.sourceFiles hi
    constructor
    · rw [hbl2, hbl1, hbs, declaredLength_cons]
      omega
    · rw [hsf2, hsf1, hbs, bufferSourcePaths_cons_none b0 rest hb0]
      simp

/-- C5 counterexample: the no-URI entry sits at index 1, but the remote URI
at index 0 raises the unsupported-reference error first, so `pack()` does
not fail with the malformed-description error. -/
theorem c5_error_kind_counterexample :
    GLB.pack wFsEmpty cD5 = .error (.unsupportedReference remoteUri1) ∧
    (cD5.buffers.getD 1 defaultBuffer).uri = none ∧
    ToolError.unsupportedReference remoteUri1 ≠ ToolError.malformedDescription :=
  ⟨rfl, rfl, by decide⟩

/-- C5 witness: a no-URI entry at index 1 after a local-URI entry. -/
theorem c5_missing_uri_rejected_witness :
    GLB.pack wFsEmpty wD5 = .error .malformedDescription :=
  c5_missing_uri_rejected.1 wFsEmpty wD5 wPre5 wB5 [] rfl rfl (by simp [wPre5])
    (fun x hx u hu => by
      simp only [wPre5, List.mem_singleton] at hx
      subst hx
      injection hu with hu
      subst hu
      exact ⟨rfl, rfl⟩)

/-- C1 (amended): after a successful `pack()` with final merged length `N`,
provided every view over a remapped external buffer was in range of that
buffer as declared (original `byteOffset` default 0 plus `byteLength` at
most the declared `byteLength` of the buffer entry), every rewritten view
satisfies `byteOffset + byteLength ≤ N` (hence `byteOffset < N` whenever
`byteLength > 0`), and every view appended for an image satisfies the same
bounds unconditionally.  (Without the in-range hypothesis the original
offsets are trusted unchecked and the claimed bound fails.) -/
theorem c1_offset_bounds (fs : FileSystem) (d : GLTFDescription) (r : PackResult)
    (bl1 : Nat) (sf1 : List String) (m : Nat → Option Nat)
    (hb : packBuffersLoop d.buffers 0 0 [] (fun _ => none) = .ok (bl1, sf1, m))
    (hp : GLB.pack fs d = .ok r)
    (hin : ∀ v ∈ d.bufferViews, v.buffer < d.buffers.length →
      ((d.buffers.getD v.buffer defaultBuffer).uri).isSome →
      v.byteOffset.getD 0 + v.byteLength
        ≤ (d.buffers.getD v.buffer defaultBuffer).byteLength) :
    (∀ v ∈ d.bufferViews, ∀ off, m v.buffer = some off →
      ∃ o, (rewriteBufferView m v).byteOffset = some o ∧
        o + v.byteLength ≤ r.binLength ∧ (0 < v.byteLength → o < r.binLength)) ∧
    (∀ v ∈ r.description.bufferViews.drop d.bufferViews.length,
      ∃ o, v.byteOffset = some o ∧
        o + v.byteLength ≤ r.binLength ∧ (0 < v.byteLength → o < r.binLength)) := by
  obtain ⟨bl1', sf1', m', hb', imgs2, views2, hi, hdesc, hw⟩ := GLB.pack_ok fs d r hp
  rw [hb] at hb'
  simp only [Except.ok.injEq, Prod.mk.injEq] at hb'
  obtain ⟨h1, h2, h3⟩ := hb'
  subst h1; subst h2; subst h3
  obtain ⟨hbl1, hsf1, hmout, hmj⟩ :=
    packBuffersLoop_spec d.buffers 0 0 [] (fun _ => none) bl1 sf1 m hb
  obtain ⟨hbl2, hsf2, ⟨app, happ, hbnd⟩, hf⟩ := packImagesLoop_spec fs d.images
    (d.bufferViews.map (rewriteBufferView m)) bl1 sf1 imgs2 views2
    r.binLength r.sourceFiles hi
  have hble : bl1 ≤ r.binLength := by rw [hbl2]; omega
  constructor
  · intro v hv off hoff
    have hvlt : v.buffer < d.buffers.length := by
      by_contra hge
      have hnone := hmout v.buffer (Or.inr (by omega))
      rw [hnone] at hoff
      exact Option.noConfusion hoff
    have hj := hmj v.buffer hvlt
    rcases hu : (d.buffers.getD v.buffer defaultBuffer).uri with _ | u
    · rw [hu] at hj
      obtain ⟨_, hmn⟩ := hj
      rw [Nat.zero_add] at hmn
      rw [hmn] at hoff
      exact Option.noConfusion hoff
    · rw [hu] at hj
      obtain ⟨hs, hn, hmval, hbound⟩ := hj
      rw [Nat.zero_add] at hmval
      rw [hmval] at hoff
      injection hoff with hoff
      have hrange := hin v hv hvlt (by rw [hu]; rfl)
      refine ⟨v.byteOffset.getD 0 + off, ?_, ?_, ?_⟩
      · unfold rewriteBufferView
        rw [hmval]
        rw [hoff]
      · omega
      · omega
  · intro v hv
    simp only [hdesc] at hv
    rw [happ, List.drop_left' (by simp)] at hv
    obtain ⟨_, o, ho, hlo, hhi⟩ := hbnd v hv
    exact ⟨o, ho, hhi, fun hpos => by omega⟩

/-- C1 counterexample: the single view is over buffer 0 (which has a URI
and is remapped), `pack()` succeeds with merged length `N = 0`, yet the
rewritten view keeps `byteOffset = 5`, violating `byteOffset < N`. -/
theorem c1_offset_out_of_range :
    GLB.pack wFsEmpty cD1 = .ok cR1 ∧
    (cD1.buffers.getD 0 defaultBuffer).uri.isSome = true ∧
    (cR1.description.bufferViews.getD 0 defaultView).byteOffset = some 5 ∧
    cR1.binLength = 0 ∧ ¬(5 < cR1.binLength) :=
  ⟨rfl, rfl, rfl, rfl, by decide⟩

/-- C1 witness: a concrete in-range view stays in range after packing. -/
theorem c1_offset_bounds_witness :
    ∃ o, (rewriteBufferView wM1
        { buffer := 0, byteLength := 2, byteOffset := some 1 }).byteOffset = some o ∧
      o + 2 ≤ wR1.binLength ∧ (0 < 2 → o < wR1.binLength) :=
  (c1_offset_bounds wFsEmpty wD1 wR1 4 ["a.bin"] wM1 rfl rfl (by decide)).1
    { buffer := 0, byteLength := 2, byteOffset := some 1 } (by simp [wD1]) 0 rfl

/-- C7: for the scenario with one 4-byte external buffer `buf.bin`, one
image `pic.png` of size 10, and an arbitrary original `bufferViews` array
of length `K`, `pack()` succeeds with final accumulated length 14 (aligned
BIN chunk length 16), sets the `bufferView` of the image to `K`, and appends the
new view `buffer 0, byteLength 10, byteOffset 4` at the end. -/
theorem c7_image_scenario (fs : FileSystem) (views : List GLTFBufferViewDescription)
    (bv : Option Nat) (mt : Option String) (os : List (String × String))
    (pic : List Nat) (hpic : fs "pic.png" = some pic) (hlen : pic.length = 10)
    (buf : List Nat) (hbuf : fs "buf.bin" = some buf) (hbuflen : buf.length = 4) :
    ∃ r, GLB.pack fs
        { buffers := [{ byteLength := 4, uri := some (localUri "buf.bin") }],
          bufferViews := views,
          images := [{ uri := some (localUri "pic.png"), bufferView := bv, mimeType := mt }],
          others := os } = .ok r ∧
      r.binLength = 14 ∧ align_to_4 r.binLength = 16 ∧
      r.description.images = [{ uri := none, bufferView := some views.length, mimeType := mt }] ∧
      r.description.bufferViews.length = views.length + 1 ∧
      r.description.bufferViews.drop views.length
        = [{ buffer := 0, byteLength := 10, byteOffset := some 4 }] := by
  have hb : packBuffersLoop [{ byteLength := 4, uri := some (localUri "buf.bin") }] 0 0 []
      (fun _ => none) = .ok (4, ["buf.bin"], insertOffset (fun _ => none) 0 0) := rfl
  have hi : packImagesLoop fs
      [{ uri := some (localUri "pic.png"), bufferView := bv, mimeType := mt }]
      (views.map (rewriteBufferView (insertOffset (fun _ => none) 0 0))) 4 ["buf.bin"]
      = .ok ([{ uri := none,
                bufferView := some (views.map (rewriteBufferView
                  (insertOffset (fun _ => none) 0 0))).length,
                mimeType := mt }],
             views.map (rewriteBufferView (insertOffset (fun _ => none) 0 0))
               ++ [{ buffer := 0, byteLength := 10, byteOffset := some 4 }],
             14, ["buf.bin", "pic.png"]) := by
    unfold packImagesLoop
    simp [localUri, hpic, hlen]
    rfl
  refine ⟨{ description := { buffers := [{ byteLength := 14, uri := none }],
                             bufferViews := views.map (rewriteBufferView
                               (insertOffset (fun _ => none) 0 0))
                               ++ [{ buffer := 0, byteLength := 10, byteOffset := some 4 }],
                             images := [{ uri := none,
                                          bufferView := some (views.map (rewriteBufferView
                                            (insertOffset (fun _ => none) 0 0))).length,
                                          mimeType := mt }],
                             others := os },
            binLength := 14, sourceFiles := ["buf.bin", "pic.png"], warned := false },
    ?_, rfl, by show align_to_4 14 = 16; decide, ?_, ?_, ?_⟩
  · unfold GLB.pack
    simp only [hb, hi]
    rfl
  · simp
  · simp
  · rw [List.drop_left' (by simp)]

/-- C7 witness: the scenario run on a concrete filesystem with no
pre-existing views. -/
theorem c7_image_scenario_witness :
    ∃ r, GLB.pack wFs7
        { buffers := [{ byteLength := 4, uri := some (localUri "buf.bin") }],
          bufferViews := [],
          images := [{ uri := some (localUri "pic.png"), bufferView := none,
                       mimeType := some "image/png" }],
          others := [] } = .ok r ∧
      r.binLength = 14 ∧ align_to_4 r.binLength = 16 ∧
      r.description.images
        = [{ uri := none, bufferView := some (List.length ([] : List GLTFBufferViewDescription)),
             mimeType := some "image/png" }] ∧
      r.description.bufferViews.length = List.length ([] : List GLTFBufferViewDescription) + 1 ∧
      r.description.bufferViews.drop (List.length ([] : List GLTFBufferViewDescription))
        = [{ buffer := 0, byteLength := 10, byteOffset := some 4 }] :=
  c7_image_scenario wFs7 [] none (some "image/png") [] (List.replicate 10 7) rfl (by decide)
    (List.replicate 4 3) rfl (by decide)

/-- C10 (amended): for a successful pack, the BIN chunk data is exactly the
actual on-disk bytes of the source files concatenated in order followed by
zero padding sized from the declared accumulated counter; the actual byte
count of the BIN chunk equals the emitted `binChunkLength` — and the
actual total file size equals the emitted `totalLength` — if and only if the
SUM of the declared buffer `byteLength` values equals the SUM of the actual
buffer file sizes.  (The claimed entrywise condition is strictly stronger
than this sum condition and is not equivalent to it.) -/
theorem c10_declared_sizes (fs : FileSystem) (d : GLTFDescription) (r : PackResult)
    (bin : List Nat)
    (hp : GLB.pack fs d = .ok r)
    (hread : readSourceFiles fs r.sourceFiles = .ok bin) :
    bin = (r.sourceFiles.map (fun p => (fs p).getD [])).flatten ∧
    binChunkData fs r.sourceFiles r.binLength
      = .ok (bin ++ List.replicate (align_to_4 r.binLength - r.binLength) 0) ∧
    ((bin ++ List.replicate (align_to_4 r.binLength - r.binLength) 0).length
        = align_to_4 r.binLength
      ↔ actualTotal fs (bufferSourcePaths d.buffers) = declaredLength d.buffers) ∧
    (∀ out, GLB.write fs r = .ok out →
      (out.length = readU32LE out 8
        ↔ actualTotal fs (bufferSourcePaths d.buffers) = declaredLength d.buffers)) := by
  obtain ⟨bl1, sf1, m, hb, imgs2, views2, hi, hdesc, hw⟩ := GLB.pack_ok fs d r hp
  obtain ⟨hbl1, hsf1, _, _⟩ :=
    packBuffersLoop_spec d.buffers 0 0 [] (fun _ => none) bl1 sf1 m hb
  obtain ⟨hbl2, hsf2, _, _⟩ := packImagesLoop_spec fs d.images
    (d.bufferViews.map (rewriteBufferView m)) bl1 sf1 imgs2 views2
    r.binLength r.sourceFiles hi
  have hsf : r.sourceFiles = bufferSourcePaths d.buffers ++ imageSourcePaths d.images := by
    rw [hsf2, hsf1]
    simp
  have hBL : r.binLength
      = declaredLength d.buffers + actualTotal fs (imageSourcePaths d.images) := by
    rw [hbl2, hbl1]
    omega
  have hbinlen : bin.length
      = actualTotal fs (bufferSourcePaths d.buffers)
        + actualTotal fs (imageSourcePaths d.images) := by
    rw [readSourceFiles_length fs r.sourceFiles bin hread, hsf, actualTotal_append]
  have hpad : r.binLength ≤ align_to_4 r.binLength := le_align_to_4 _
  refine ⟨readSourceFiles_spec fs r.sourceFiles bin hread, ?_, ?_, ?_⟩
  · unfold binChunkData
    rw [hread]
  · simp only [List.length_append, List.length_replicate]
    constructor
    · intro hlen
      omega
    · intro heq
      omega
  · intro out hout
    obtain ⟨bin', hbin', h12, h20, h8, hlen⟩ := GLB.write_fields fs r out hout
    rw [hread] at hbin'
    injection hbin' with hbin'
    subst hbin'
    rw [h8, hlen]
    constructor
    · intro hlen2
      omega
    · intro heq
      omega

/-- C10 counterexample: two buffers declared 4 and 6 bytes whose files are
actually 6 and 4 bytes: the BIN chunk byte count (12) equals the emitted
aligned length, yet the declared size of the first buffer differs from its
actual file size, refuting the claimed entrywise equivalence. -/
theorem c10_pointwise_counterexample :
    GLB.pack cFs10 cD10 = .ok cR10 ∧
    binChunkData cFs10 cR10.sourceFiles cR10.binLength = .ok (List.replicate 12 0) ∧
    (List.replicate 12 0 : List Nat).length = align_to_4 cR10.binLength ∧
    (cD10.buffers.getD 0 defaultBuffer).byteLength = 4 ∧
    actualSize cFs10 "a.bin" = 6 :=
  ⟨rfl, rfl, by decide, rfl, by decide⟩

/-- C10 witness: a concrete pack whose declared and actual sizes agree. -/
theorem c10_declared_sizes_witness :
    binChunkData wFs10 wR10.sourceFiles wR10.binLength
      = .ok (List.replicate 4 0
          ++ List.replicate (align_to_4 wR10.binLength - wR10.binLength) 0) :=
  (c10_declared_sizes wFs10 wD10 wR10 (List.replicate 4 0) rfl rfl).2.1
